import Mathlib

/-!
Verification of the powerline-footer status-line pipeline
(`src/pi-extensions/powerline-footer`): the git freshness cache with
generation counters, the external process gateway, the porcelain status
parser, branch resolution, the responsive layout engine, and segment
dispatch.  Each definition is a shallow embedding of the corresponding
TypeScript function; timestamps and counters are natural numbers, JS
`null`/`undefined` is `Option`, and strings are Lean `String`s.
-/

namespace Powerline

/-! ## Porcelain status parsing (`parseGitStatusOutput`) -/

/-- Counts returned by `parseGitStatusOutput`. -/
structure GitCounts where
  staged : Nat
  unstaged : Nat
  untracked : Nat
deriving Repr, DecidableEq

/-- JS `output.split("\n")` on the character sequence of the text:
splitting an empty text yields one empty line. -/
def splitNl : List Char → List (List Char)
  | [] => [[]]
  | c :: rest =>
    let r := splitNl rest
    if c = '\n' then [] :: r
    else
      match r with
      | [] => [[c]]
      | l :: ls => (c :: l) :: ls

/-- One iteration of the `for (const line of output.split("\n"))` loop in
`parseGitStatusOutput`: `x = line[0]`, `y = line[1]`; `??` counts as
untracked; otherwise a non-space non-`?` `x` counts as staged and a
non-space `y` counts as unstaged.  Lines are character sequences. -/
def parseGitLine (acc : GitCounts) (line : List Char) : GitCounts :=
  if line = [] then acc
  else
    let x : Option Char := line.get? 0
    let y : Option Char := line.get? 1
    if x = some '?' ∧ y = some '?' then
      { acc with untracked := acc.untracked + 1 }
    else
      let acc1 :=
        match x with
        | some c => if c ≠ ' ' ∧ c ≠ '?' then { acc with staged := acc.staged + 1 } else acc
        | none => acc
      match y with
      | some c => if c ≠ ' ' then { acc1 with unstaged := acc1.unstaged + 1 } else acc1
      | none => acc1

/-- `parseGitStatusOutput` from `git-status.ts`: split on newlines and fold
the per-line counting over zero counts. -/
def parseGitStatusOutput (output : String) : GitCounts :=
  (splitNl output.data).foldl parseGitLine ⟨0, 0, 0⟩

/-! ## External process gateway (`runGit`) -/

/-- Events delivered to the handlers installed by `runGit`: stdout data
chunks, process close with an (optional) exit code, a spawn error, or the
timeout firing. -/
inductive ProcEvent where
  | data (chunk : String)
  | close (code : Option Int)
  | error
  | timeout
deriving Repr, DecidableEq

/-- JS whitespace stripped by `String.prototype.trim` (the characters that
occur in process output). -/
def isJsWhite (c : Char) : Bool :=
  c = ' ' ∨ c = '\t' ∨ c = '\n' ∨ c = '\r'

/-- JS `stdout.trim()`: strip leading and trailing whitespace. -/
def jsTrim (s : String) : String :=
  ⟨((s.data.dropWhile isJsWhite).reverse.dropWhile isJsWhite).reverse⟩

/-- The mutable locals of `runGit`: the accumulated `stdout` string and the
`resolved` flag together with the resolved value (`none` while the promise
is still pending, `some r` once `finish r` ran). -/
structure RunGitState where
  stdout : String
  result : Option (Option String)
deriving Repr, DecidableEq

/-- How `runGit`'s handlers react to one event.  `finish` is a no-op once
`resolved` is set; `close` resolves with the trimmed stdout on exit code 0
and `null` otherwise; `error` and `timeout` resolve with `null`. -/
def runGitStep (st : RunGitState) (e : ProcEvent) : RunGitState :=
  match st.result with
  | some _ => st
  | none =>
    match e with
    | .data chunk => { st with stdout := st.stdout ++ chunk }
    | .close code =>
      { st with result := some (if code = some 0 then some (jsTrim st.stdout) else none) }
    | .error => { st with result := some none }
    | .timeout => { st with result := some none }

/-- `runGit` as a function of the sequence of process events it observes:
the promise's final value, `none` if no terminating event ever arrived. -/
def runGit (events : List ProcEvent) : Option (Option String) :=
  (events.foldl runGitStep ⟨"", none⟩).result

/-- An event that causes `finish` to run. -/
def isTerminal : ProcEvent → Bool
  | .data _ => false
  | _ => true

/-! ## Branch resolution (`fetchGitBranch`) -/

/-- The arguments of the first gateway call in `fetchGitBranch`. -/
def branchArgs : List String := ["branch", "--show-current"]

/-- The arguments of the short-SHA fallback call in `fetchGitBranch`. -/
def shaArgs : List String := ["rev-parse", "--short", "HEAD"]

/-- `fetchGitBranch` over an abstract gateway `gw` (the result of `runGit`
for a given argument list).  Returns the resolved branch together with the
list of gateway calls actually performed, in order: `null` branch (not a
repository) short-circuits; an empty branch (detached HEAD) triggers the
short-SHA lookup, reported as `"<sha> (detached)"`, or bare `"detached"`
when the SHA lookup fails or is empty. -/
def fetchGitBranch (gw : List String → Option String) :
    Option String × List (List String) :=
  match gw branchArgs with
  | none => (none, [branchArgs])
  | some branch =>
    if branch ≠ "" then (some branch, [branchArgs])
    else
      match gw shaArgs with
      | some sha =>
        (if sha ≠ "" then some (sha ++ " (detached)") else some "detached",
         [branchArgs, shaArgs])
      | none => (some "detached", [branchArgs, shaArgs])

/-! ## Freshness cache (`git-status.ts` module state and operations) -/

/-- `CachedGitStatus` from `git-status.ts`. -/
structure CachedGitStatus where
  staged : Nat
  unstaged : Nat
  untracked : Nat
  timestamp : Nat
deriving Repr, DecidableEq

/-- `CachedBranch` from `git-status.ts`. -/
structure CachedBranch where
  branch : Option String
  timestamp : Nat
deriving Repr, DecidableEq

/-- The module-level mutable state of `git-status.ts`.  The in-flight
promise markers `pendingFetch`/`pendingBranchFetch` are modelled by the
generation id captured in the closure of the corresponding `.then`
callback (`some fetchId` while a fetch is in flight). -/
structure GitCacheState where
  cachedStatus : Option CachedGitStatus
  cachedBranch : Option CachedBranch
  pendingFetch : Option Nat
  pendingBranchFetch : Option Nat
  invalidationCounter : Nat
  branchInvalidationCounter : Nat
deriving Repr, DecidableEq

/-- `CACHE_TTL_MS` (working-tree status TTL). -/
def CACHE_TTL_MS : Nat := 1000

/-- `BRANCH_TTL_MS` (branch TTL). -/
def BRANCH_TTL_MS : Nat := 500

/-- `getCurrentBranch`: return the cached branch if fresh; otherwise start
a background fetch (capturing the current generation) unless one is
pending, then return the stale cached branch, or the provider branch when
no cache exists yet. -/
def getCurrentBranch (now : Nat) (providerBranch : Option String)
    (s : GitCacheState) : Option String × GitCacheState :=
  match s.cachedBranch with
  | some cb =>
    if now - cb.timestamp < BRANCH_TTL_MS then
      (cb.branch, s)
    else
      let s' := if s.pendingBranchFetch.isNone
        then { s with pendingBranchFetch := some s.branchInvalidationCounter }
        else s
      (cb.branch, s')
  | none =>
    let s' := if s.pendingBranchFetch.isNone
      then { s with pendingBranchFetch := some s.branchInvalidationCounter }
      else s
    (providerBranch, s')

/-- The completion callback of the branch fetch started by
`getCurrentBranch`: commit the result only if the captured generation
still equals the current one, then clear the in-flight marker. -/
def completeBranchFetch (result : Option String) (now : Nat)
    (s : GitCacheState) : GitCacheState :=
  match s.pendingBranchFetch with
  | none => s
  | some fetchId =>
    let s' := if fetchId = s.branchInvalidationCounter
      then { s with cachedBranch := some ⟨result, now⟩ }
      else s
    { s' with pendingBranchFetch := none }

/-- The `GitStatus` record returned to segment rendering. -/
structure GitStatus where
  branch : Option String
  staged : Nat
  unstaged : Nat
  untracked : Nat
deriving Repr, DecidableEq

/-- `getGitStatus`: resolve the branch via `getCurrentBranch`, then serve
the cached working-tree counts if fresh; otherwise start a background
status fetch (capturing the current generation) unless one is pending
and serve the stale counts, or zeros when no cache exists yet. -/
def getGitStatus (now : Nat) (providerBranch : Option String)
    (s : GitCacheState) : GitStatus × GitCacheState :=
  let r := getCurrentBranch now providerBranch s
  let branch := r.1
  let s1 := r.2
  match s1.cachedStatus with
  | some cs =>
    if now - cs.timestamp < CACHE_TTL_MS then
      (⟨branch, cs.staged, cs.unstaged, cs.untracked⟩, s1)
    else
      let s2 := if s1.pendingFetch.isNone
        then { s1 with pendingFetch := some s1.invalidationCounter }
        else s1
      (⟨branch, cs.staged, cs.unstaged, cs.untracked⟩, s2)
  | none =>
    let s2 := if s1.pendingFetch.isNone
      then { s1 with pendingFetch := some s1.invalidationCounter }
      else s1
    (⟨branch, 0, 0, 0⟩, s2)

/-- The completion callback of the status fetch started by `getGitStatus`:
commit the parsed counts (zeros when the fetch returned `null`) only if
the captured generation still equals the current one, then clear the
in-flight marker. -/
def completeStatusFetch (result : Option GitCounts) (now : Nat)
    (s : GitCacheState) : GitCacheState :=
  match s.pendingFetch with
  | none => s
  | some fetchId =>
    let s' := if fetchId = s.invalidationCounter
      then { s with cachedStatus := some (match result with
              | some r => ⟨r.staged, r.unstaged, r.untracked, now⟩
              | none => ⟨0, 0, 0, now⟩) }
      else s
    { s' with pendingFetch := none }

/-- `invalidateGitStatus`: clear the status cache and bump the status
generation counter. -/
def invalidateGitStatus (s : GitCacheState) : GitCacheState :=
  { s with cachedStatus := none, invalidationCounter := s.invalidationCounter + 1 }

/-- `invalidateGitBranch`: clear the branch cache and bump the branch
generation counter. -/
def invalidateGitBranch (s : GitCacheState) : GitCacheState :=
  { s with cachedBranch := none,
           branchInvalidationCounter := s.branchInvalidationCounter + 1 }

/-! ## Layout engine (`computeResponsiveLayout`, `buildContentFromParts`) -/

/-- One rendered, visible segment as collected by `computeResponsiveLayout`:
its styled content and its visible width. -/
structure RenderedSeg where
  content : String
  width : Nat
deriving Repr, DecidableEq

/-- The loop state of `computeResponsiveLayout`'s greedy pass. -/
structure LayoutAcc where
  currentWidth : Nat
  topSegments : List String
  secondarySegments : List String
  overflow : Bool
deriving Repr, DecidableEq

/-- The initial loop state: `currentWidth` starts at the fixed overhead of
2 (leading and trailing space). -/
def initAcc : LayoutAcc := ⟨2, [], [], false⟩

/-- The body of the greedy loop: a segment needs its own width plus one
separator width when it is not the first accepted segment; it is accepted
into the top row iff no segment has overflowed yet and it fits the budget,
otherwise it goes to the secondary row and the overflow flag is set. -/
def layoutStep (availableWidth sepWidth : Nat) (acc : LayoutAcc)
    (seg : RenderedSeg) : LayoutAcc :=
  let neededWidth := seg.width +
    (if acc.topSegments.length > 0 then sepWidth else 0)
  if acc.overflow = false ∧ acc.currentWidth + neededWidth ≤ availableWidth then
    { acc with topSegments := acc.topSegments ++ [seg.content],
               currentWidth := acc.currentWidth + neededWidth }
  else
    { acc with overflow := true,
               secondarySegments := acc.secondarySegments ++ [seg.content] }

/-- The full greedy pass over the visible rendered segments. -/
def layoutFold (availableWidth sepWidth : Nat) (segs : List RenderedSeg) :
    LayoutAcc :=
  segs.foldl (layoutStep availableWidth sepWidth) initAcc

/-- `buildContentFromParts`: empty list yields the empty string, otherwise
the parts joined by the styled separator with one leading and one trailing
space (`sepJoin` is the full `" ${sepAnsi}${sep}${ansi.reset} "` joiner and
`resetSuffix` the trailing `ansi.reset`). -/
def buildContentFromParts (parts : List String) (sepJoin resetSuffix : String) :
    String :=
  if parts = [] then ""
  else " " ++ String.intercalate sepJoin parts ++ resetSuffix ++ " "

/-- `computeResponsiveLayout` restricted to its layout core: the visible
rendered segments are given directly (their rendering is segment-local),
and the function returns the top and secondary row contents. -/
def computeResponsiveLayout (sepWidth : Nat) (renderedSegments : List RenderedSeg)
    (availableWidth : Nat) (sepJoin resetSuffix : String) : String × String :=
  if renderedSegments = [] then ("", "")
  else
    let final := layoutFold availableWidth sepWidth renderedSegments
    (buildContentFromParts final.topSegments sepJoin resetSuffix,
     buildContentFromParts final.secondarySegments sepJoin resetSuffix)

/-- The loop state just before segment `i` is processed. -/
def stateAfter (availableWidth sepWidth : Nat) (segs : List RenderedSeg)
    (i : Nat) : LayoutAcc :=
  (segs.take i).foldl (layoutStep availableWidth sepWidth) initAcc

/-- Whether the segment at position `i` was placed in the secondary row:
the secondary row grew when it was processed. -/
def goesSecondary (availableWidth sepWidth : Nat) (segs : List RenderedSeg)
    (i : Nat) : Bool :=
  (stateAfter availableWidth sepWidth segs i).secondarySegments.length <
    (stateAfter availableWidth sepWidth segs (i + 1)).secondarySegments.length

/-! ## Segments (`segments.ts`) -/

/-- `RenderedSegment` from `types.ts`. -/
structure RenderedSegment where
  content : String
  visible : Bool
deriving Repr, DecidableEq

/-- `SemanticColor` from `types.ts`. -/
inductive SemanticColor where
  | pi | model | path | git | gitDirty | gitClean
  | thinking | thinkingHigh | context | contextWarn | contextError
  | tokens | separator | border
deriving Repr, DecidableEq

/-- An exact nonnegative fraction `num / den` (with `den` positive by
use), modelling the JS numbers these computations produce.  All the
divisions the verified scenarios evaluate are exactly representable in
binary floating point, so exact fraction arithmetic coincides with the
source's number arithmetic there. -/
structure Frac where
  num : Nat
  den : Nat
deriving Repr, DecidableEq

/-- `q > n` for a fraction with positive denominator. -/
def Frac.gtNat (q : Frac) (n : Nat) : Bool := n * q.den < q.num

/-- A decimal digit character. -/
def digitChar : Nat → Char
  | 0 => '0' | 1 => '1' | 2 => '2' | 3 => '3' | 4 => '4'
  | 5 => '5' | 6 => '6' | 7 => '7' | 8 => '8' | _ => '9'

/-- Decimal digits of `n` (auxiliary, fuel-structured so the kernel can
evaluate it). -/
def natDigitsAux : Nat → Nat → List Char
  | 0, _ => []
  | fuel + 1, n =>
    if n = 0 then []
    else natDigitsAux fuel (n / 10) ++ [digitChar (n % 10)]

/-- JS number-to-string for the natural numbers these computations
produce. -/
def natToString (n : Nat) : String :=
  if n = 0 then "0" else ⟨natDigitsAux n n⟩

/-- JS `Math.round` on the nonnegative values this code produces: round
to nearest, ties toward positive infinity, i.e. `⌊q + 1/2⌋`. -/
def jsRound (q : Frac) : Nat := (2 * q.num + q.den) / (2 * q.den)

/-- JS `Number.prototype.toFixed(1)` on the nonnegative values this code
produces: round `q * 10` to the nearest integer (ties toward the larger
integer, i.e. `⌊q * 10 + 1/2⌋`) and print one decimal digit. -/
def toFixed1 (q : Frac) : String :=
  let n : Nat := (q.num * 10 * 2 + q.den) / (2 * q.den)
  natToString (n / 10) ++ "." ++ natToString (n % 10)

/-- `formatTokens` from `segments.ts`. -/
def formatTokens (n : Nat) : String :=
  if n < 1000 then natToString n
  else if n < 10000 then toFixed1 ⟨n, 1000⟩ ++ "k"
  else if n < 1000000 then natToString (jsRound ⟨n, 1000⟩) ++ "k"
  else if n < 10000000 then toFixed1 ⟨n, 1000000⟩ ++ "M"
  else natToString (jsRound ⟨n, 1000000⟩) ++ "M"

/-- `withIcon` from `segments.ts`: prefix the icon and a space when the
icon string is non-empty (truthy). -/
def withIcon (icon text : String) : String :=
  if icon ≠ "" then icon ++ " " ++ text else text

/-- The context-percentage computation of `buildSegmentContext`
(`index.ts` lines 352-353): `(contextTokens / contextWindow) * 100` when
the window is positive, else `0`. -/
def contextPercentOf (contextTokens contextWindow : Nat) : Frac :=
  if 0 < contextWindow then ⟨contextTokens * 100, contextWindow⟩
  else ⟨0, 1⟩

/-- `contextPctSegment.render`: build the text
`"{pct.toFixed(1)}%/{formatTokens(window)}{autoIcon}"` and wrap it in the
`contextError` color above 90, `contextWarn` above 70, and `context`
otherwise, with the context icon outside the color.  The theme's color
application is abstracted as `color`. -/
def contextPctSegmentRender (contextIcon autoIconGlyph : String)
    (color : SemanticColor → String → String)
    (contextPercent : Frac) (contextWindow : Nat)
    (autoCompactEnabled : Bool) : RenderedSegment :=
  let autoIcon := if autoCompactEnabled ∧ autoIconGlyph ≠ "" then " " ++ autoIconGlyph else ""
  let text := toFixed1 contextPercent ++ "%/" ++ formatTokens contextWindow ++ autoIcon
  if contextPercent.gtNat 90 then
    ⟨withIcon contextIcon (color .contextError text), true⟩
  else if contextPercent.gtNat 70 then
    ⟨withIcon contextIcon (color .contextWarn text), true⟩
  else
    ⟨withIcon contextIcon (color .context text), true⟩

/-- The render functions of the 19 registered segments, abstracted over
the render-context type (each segment body is irrelevant to the dispatch
logic verified here). -/
structure SegmentImpls (Ctx : Type) where
  pi : Ctx → RenderedSegment
  model : Ctx → RenderedSegment
  path : Ctx → RenderedSegment
  git : Ctx → RenderedSegment
  thinking : Ctx → RenderedSegment
  subagents : Ctx → RenderedSegment
  token_in : Ctx → RenderedSegment
  token_out : Ctx → RenderedSegment
  token_total : Ctx → RenderedSegment
  codex : Ctx → RenderedSegment
  context_pct : Ctx → RenderedSegment
  context_total : Ctx → RenderedSegment
  time_spent : Ctx → RenderedSegment
  time : Ctx → RenderedSegment
  session : Ctx → RenderedSegment
  hostname : Ctx → RenderedSegment
  cache_read : Ctx → RenderedSegment
  cache_write : Ctx → RenderedSegment
  extension_statuses : Ctx → RenderedSegment

/-- The `SEGMENTS` registry as a key lookup: exactly the 19 ids of
`segments.ts` map to their render function, everything else to `none`
(JS property access returning `undefined`). -/
def SEGMENTS {Ctx : Type} (impl : SegmentImpls Ctx) (id : String) :
    Option (Ctx → RenderedSegment) :=
  match id with
  | "pi" => some impl.pi
  | "model" => some impl.model
  | "path" => some impl.path
  | "git" => some impl.git
  | "thinking" => some impl.thinking
  | "subagents" => some impl.subagents
  | "token_in" => some impl.token_in
  | "token_out" => some impl.token_out
  | "token_total" => some impl.token_total
  | "codex" => some impl.codex
  | "context_pct" => some impl.context_pct
  | "context_total" => some impl.context_total
  | "time_spent" => some impl.time_spent
  | "time" => some impl.time
  | "session" => some impl.session
  | "hostname" => some impl.hostname
  | "cache_read" => some impl.cache_read
  | "cache_write" => some impl.cache_write
  | "extension_statuses" => some impl.extension_statuses
  | _ => none

/-- The list of registered segment ids (the keys of `SEGMENTS`). -/
def segmentIds : List String :=
  ["pi", "model", "path", "git", "thinking", "subagents", "token_in",
   "token_out", "token_total", "codex", "context_pct", "context_total",
   "time_spent", "time", "session", "hostname", "cache_read", "cache_write",
   "extension_statuses"]

/-- `renderSegment` from `segments.ts`: look the id up in the registry and
render, falling back to `{content: "", visible: false}` when the id is
unknown. -/
def renderSegment {Ctx : Type} (impl : SegmentImpls Ctx) (id : String)
    (ctx : Ctx) : RenderedSegment :=
  match SEGMENTS impl id with
  | none => ⟨"", false⟩
  | some seg => seg ctx

/-- A tagging theme used to observe which semantic color a segment
selected. -/
def semanticColorName : SemanticColor → String
  | .contextError => "contextError"
  | .contextWarn => "contextWarn"
  | .context => "context"
  | _ => "other"

/-- A color application that records the selected semantic color in the
output text. -/
def tagColor (sem : SemanticColor) (text : String) : String :=
  semanticColorName sem ++ ":" ++ text

/-- A trivial segment implementation table over a unit context, used to
instantiate dispatch statements. -/
def blankRender : Unit → RenderedSegment := fun _ => ⟨"", false⟩

/-- All-blank segment implementations over the unit context. -/
def trivialImpls : SegmentImpls Unit :=
  ⟨blankRender, blankRender, blankRender, blankRender, blankRender,
   blankRender, blankRender, blankRender, blankRender, blankRender,
   blankRender, blankRender, blankRender, blankRender, blankRender,
   blankRender, blankRender, blankRender, blankRender⟩

/-! ## Theorems -/

/-- C4 (counterexample): parsing a porcelain text with one `??` line and
one line starting with `M ` (capital M, then a space) does NOT yield
`{staged: 0, unstaged: 1, untracked: 1}`: the `M` sits in the index (X)
position, so the code counts it as staged. -/
theorem C4_counterexample :
    parseGitStatusOutput "?? a.txt\nM  b.txt" ≠ ⟨0, 1, 1⟩ := by decide

/-- C4 (amended): parsing a porcelain text with one `??` line and one
line starting with `M ` yields `{staged: 1, unstaged: 0, untracked: 1}`. -/
theorem C4_parse_staged_untracked :
    parseGitStatusOutput "?? a.txt\nM  b.txt" = ⟨1, 0, 1⟩ := by decide

/-- C5 (counterexample): for context usage 7000 of an 8000-token window
the percentage is 87.5 and `contextPctSegment.render` selects the warning
tier (`contextWarn`), not the critical (`contextError`, >90%) tier. -/
theorem C5_counterexample :
    (contextPctSegmentRender "◫" "" tagColor
        (contextPercentOf 7000 8000) 8000 false).content
      = "◫ contextWarn:87.5%/8.0k" ∧
    (contextPctSegmentRender "◫" "" tagColor
        (contextPercentOf 7000 8000) 8000 false).content
      ≠ "◫ contextError:87.5%/8.0k" := by
  constructor <;> decide

/-- C5 (amended): for context usage 7000 of an 8000-token window, under
every theme color application, `contextPctSegment.render` selects the
warning tier (>70%) and displays the formatted value `87.5%` (of the
`8.0k` window). -/
theorem C5_context_pct_warn_tier (contextIcon : String)
    (color : SemanticColor → String → String) :
    contextPctSegmentRender contextIcon "" color
        (contextPercentOf 7000 8000) 8000 false
      = ⟨withIcon contextIcon (color .contextWarn "87.5%/8.0k"), true⟩ := by
  have h90 : (contextPercentOf 7000 8000).gtNat 90 = false := by decide
  have h70 : (contextPercentOf 7000 8000).gtNat 70 = true := by decide
  have htext : toFixed1 (contextPercentOf 7000 8000) ++ "%/" ++ formatTokens 8000
      = "87.5%/8.0k" := by decide
  simp [contextPctSegmentRender, h90, h70, htext]

/-- C6: branch resolution is a nested fallback: a `null` answer to
`git branch --show-current` (not a repository) resolves to `null` with no
second gateway call, while an empty answer (detached HEAD) with a short
SHA of `"a1b2c3d"` resolves to `"a1b2c3d (detached)"`. -/
theorem C6_branch_nested_fallback (gw : List String → Option String) :
    (gw branchArgs = none → fetchGitBranch gw = (none, [branchArgs])) ∧
    (gw branchArgs = some "" → gw shaArgs = some "a1b2c3d" →
      (fetchGitBranch gw).1 = some "a1b2c3d (detached)") := by
  constructor
  · intro h
    simp [fetchGitBranch, h]
  · intro h1 h2
    simp [fetchGitBranch, h1, h2]

/-- C6 witness: instantiating the nested fallback at two concrete
gateways. -/
theorem C6_branch_nested_fallback_witness :
    fetchGitBranch (fun _ => none) = (none, [branchArgs]) ∧
    (fetchGitBranch
        (fun a => if a = branchArgs then some "" else some "a1b2c3d")).1
      = some "a1b2c3d (detached)" :=
  ⟨(C6_branch_nested_fallback (fun _ => none)).1 rfl,
   (C6_branch_nested_fallback
      (fun a => if a = branchArgs then some "" else some "a1b2c3d")).2
     (by decide) (by decide)⟩

/-- C10: when the branch query answers the empty string (detached HEAD)
and the short-SHA lookup fails or is empty, `fetchGitBranch` resolves to
the literal `"detached"`; moreover it never resolves to the empty
string. -/
theorem C10_detached_never_empty (gw : List String → Option String) :
    (gw branchArgs = some "" → gw shaArgs = none ∨ gw shaArgs = some "" →
      (fetchGitBranch gw).1 = some "detached") ∧
    (fetchGitBranch gw).1 ≠ some "" := by
  refine ⟨?_, ?_⟩
  · intro h1 h2
    rcases h2 with h2 | h2 <;> simp [fetchGitBranch, h1, h2]
  · unfold fetchGitBranch
    cases hb : gw branchArgs with
    | none => simp
    | some branch =>
      by_cases hbe : branch = ""
      · subst hbe
        simp only [ne_eq, not_true_eq_false, if_false]
        cases hs : gw shaArgs with
        | none => simp
        | some sha =>
          by_cases hse : sha = ""
          · subst hse; simp
          · simp only [ne_eq, hse, not_false_eq_true, if_true]
            intro hcontra
            have hlen := congrArg String.length (Option.some.inj hcontra)
            simp only [String.length_append] at hlen
            have h0 : ("" : String).length = 0 := rfl
            have h11 : (" (detached)" : String).length = 11 := by decide
            rw [h0, h11] at hlen
            omega
      · simp [hbe]

/-- C10 witness: a gateway with empty branch and failing SHA lookup
resolves to `"detached"`. -/
theorem C10_detached_never_empty_witness :
    (fetchGitBranch (fun a => if a = branchArgs then some "" else none)).1
      = some "detached" :=
  (C10_detached_never_empty
      (fun a => if a = branchArgs then some "" else none)).1
    (by decide) (Or.inl (by decide))

/-- C9: every segment id outside the registry renders as
`{content: "", visible: false}` instead of erroring, for every
implementation table and every context. -/
theorem C9_unknown_segment_invisible {Ctx : Type} (impl : SegmentImpls Ctx)
    (id : String) (ctx : Ctx) (h : id ∉ segmentIds) :
    renderSegment impl id ctx = ⟨"", false⟩ := by
  have hs : SEGMENTS impl id = none := by
    unfold SEGMENTS
    split
    all_goals try rfl
    all_goals exact absurd (by decide) h
  unfold renderSegment
  rw [hs]

/-- Once the overflow flag is set, a layout step only appends the segment
to the secondary row. -/
theorem layoutStep_overflow (aw sw : Nat) (acc : LayoutAcc) (seg : RenderedSeg)
    (h : acc.overflow = true) :
    layoutStep aw sw acc seg
      = { acc with secondarySegments := acc.secondarySegments ++ [seg.content] } := by
  cases acc with
  | mk cw top sec ov =>
    subst h
    simp only [layoutStep]
    rw [if_neg (fun hc => absurd hc.1 (by decide))]

/-- Folding the greedy pass from a state whose overflow flag is set sends
every remaining segment to the secondary row. -/
theorem foldl_layoutStep_overflow (aw sw : Nat) (segs : List RenderedSeg)
    (acc : LayoutAcc) (h : acc.overflow = true) :
    segs.foldl (layoutStep aw sw) acc
      = { acc with secondarySegments := acc.secondarySegments ++ segs.map (·.content) } := by
  induction segs generalizing acc with
  | nil => simp
  | cons seg rest ih =>
    rw [List.foldl_cons, layoutStep_overflow aw sw acc seg h,
        ih { acc with secondarySegments := acc.secondarySegments ++ [seg.content] } h]
    simp

/-- Advancing the prefix state by one segment applies one layout step. -/
theorem stateAfter_succ (aw sw : Nat) (segs : List RenderedSeg) (i : Nat)
    (h : i < segs.length) :
    stateAfter aw sw segs (i + 1)
      = layoutStep aw sw (stateAfter aw sw segs i) segs[i] := by
  unfold stateAfter
  rw [List.take_succ, List.getElem?_eq_getElem h, List.foldl_append]
  rfl

/-- The prefix state is constant past the end of the segment list. -/
theorem stateAfter_of_length_le (aw sw : Nat) (segs : List RenderedSeg)
    {i j : Nat} (hi : segs.length ≤ i) (hj : segs.length ≤ j) :
    stateAfter aw sw segs i = stateAfter aw sw segs j := by
  unfold stateAfter
  rw [List.take_of_length_le hi, List.take_of_length_le hj]

/-- A layout step either leaves the secondary row and the overflow flag
unchanged (segment accepted into the top row) or appends the segment to
the secondary row and sets the overflow flag. -/
theorem layoutStep_secondary_cases (aw sw : Nat) (acc : LayoutAcc)
    (seg : RenderedSeg) :
    ((layoutStep aw sw acc seg).secondarySegments = acc.secondarySegments ∧
      (layoutStep aw sw acc seg).overflow = acc.overflow) ∨
    ((layoutStep aw sw acc seg).secondarySegments
        = acc.secondarySegments ++ [seg.content] ∧
      (layoutStep aw sw acc seg).overflow = true) := by
  simp only [layoutStep]
  split <;> split <;>
    first
      | exact Or.inl ⟨rfl, rfl⟩
      | exact Or.inr ⟨rfl, rfl⟩

/-- A segment that goes to the secondary row leaves the overflow flag
set. -/
theorem overflow_after_of_goesSecondary (aw sw : Nat) (segs : List RenderedSeg)
    (i : Nat) (hi : i < segs.length) (h : goesSecondary aw sw segs i = true) :
    (stateAfter aw sw segs (i + 1)).overflow = true := by
  unfold goesSecondary at h
  rw [stateAfter_succ aw sw segs i hi] at h ⊢
  rcases layoutStep_secondary_cases aw sw (stateAfter aw sw segs i) segs[i] with
    ⟨hsec, -⟩ | ⟨-, hov⟩
  · rw [hsec] at h
    simp at h
  · exact hov

/-- A segment processed while the overflow flag is already set goes to
the secondary row. -/
theorem goesSecondary_of_overflow (aw sw : Nat) (segs : List RenderedSeg)
    (i : Nat) (hi : i < segs.length)
    (h : (stateAfter aw sw segs i).overflow = true) :
    goesSecondary aw sw segs i = true := by
  unfold goesSecondary
  rw [stateAfter_succ aw sw segs i hi, layoutStep_overflow _ _ _ _ h]
  simp

/-- The overflow flag of the prefix state never resets. -/
theorem stateAfter_overflow_succ (aw sw : Nat) (segs : List RenderedSeg)
    (j : Nat) (h : (stateAfter aw sw segs j).overflow = true) :
    (stateAfter aw sw segs (j + 1)).overflow = true := by
  by_cases hj : j < segs.length
  · rw [stateAfter_succ aw sw segs j hj, layoutStep_overflow _ _ _ _ h]
    exact h
  · have h1 : segs.length ≤ j := Nat.le_of_not_lt hj
    rw [stateAfter_of_length_le aw sw segs (Nat.le_succ_of_le h1) h1]
    exact h

/-- The overflow flag of the prefix state is monotone in the prefix
length. -/
theorem stateAfter_overflow_mono (aw sw : Nat) (segs : List RenderedSeg)
    {i j : Nat} (hij : i ≤ j)
    (h : (stateAfter aw sw segs i).overflow = true) :
    (stateAfter aw sw segs j).overflow = true := by
  induction j, hij using Nat.le_induction with
  | base => exact h
  | succ j _ ih => exact stateAfter_overflow_succ aw sw segs j ih

/-- C3: overflow in the greedy layout pass is one-way: for every ordered
list of visible rendered segments, separator width and width budget, if
the segment at position `k` is placed in the secondary row then every
segment at a later position is also placed in the secondary row. -/
theorem C3_monotonic_overflow (aw sw : Nat) (segs : List RenderedSeg)
    (k j : Nat) (hkj : k < j) (hj : j < segs.length)
    (hk : goesSecondary aw sw segs k = true) :
    goesSecondary aw sw segs j = true := by
  have hk' : k < segs.length := Nat.lt_trans hkj hj
  have h1 := overflow_after_of_goesSecondary aw sw segs k hk' hk
  have h2 := stateAfter_overflow_mono aw sw segs (Nat.succ_le_of_lt hkj) h1
  exact goesSecondary_of_overflow aw sw segs j hj h2

/-- C3 witness: with budget 6 the 5-wide first segment overflows (it
needs 2 + 5 = 7) and the 1-wide segment after it, which would fit, is
still placed in the secondary row. -/
theorem C3_monotonic_overflow_witness :
    goesSecondary 6 3 [⟨"a", 5⟩, ⟨"b", 1⟩] 0 = true ∧
    goesSecondary 6 3 [⟨"a", 5⟩, ⟨"b", 1⟩] 1 = true :=
  ⟨by decide,
   C3_monotonic_overflow 6 3 [⟨"a", 5⟩, ⟨"b", 1⟩] 0 1 (by decide) (by decide)
     (by decide)⟩

/-- The first layout step overflows whenever the budget is below the
fixed overhead of 2 plus the first segment's width. -/
theorem layoutStep_init_overflow (aw sw : Nat) (s0 : RenderedSeg)
    (h : aw < 2 + s0.width) :
    layoutStep aw sw initAcc s0 = ⟨2, [], [s0.content], true⟩ := by
  have hnc : ¬ (initAcc.overflow = false ∧
      initAcc.currentWidth +
        (s0.width + if initAcc.topSegments.length > 0 then sw else 0) ≤ aw) := by
    rintro ⟨-, hle⟩
    simp [initAcc] at hle
    omega
  simp only [layoutStep]
  rw [if_neg hnc]
  simp [initAcc]

/-- The greedy pass over a list whose first segment already overflows. -/
theorem layoutFold_narrow (aw sw : Nat) (s0 : RenderedSeg)
    (rest : List RenderedSeg) (h : aw < 2 + s0.width) :
    layoutFold aw sw (s0 :: rest)
      = ⟨2, [], [s0.content] ++ rest.map (·.content), true⟩ := by
  unfold layoutFold
  rw [List.foldl_cons, layoutStep_init_overflow aw sw s0 h,
      foldl_layoutStep_overflow aw sw rest _ rfl]

/-- C8: for every non-empty segment list, if the available width is
smaller than the fixed overhead (2) plus the first segment's width, the
layout produces an empty primary-row string (`buildContentFromParts` of
the empty list), the top row stays empty, and the first segment and every
segment after it are placed in the secondary row. -/
theorem C8_narrow_width_empty_primary (s0 : RenderedSeg)
    (rest : List RenderedSeg) (aw sw : Nat) (sepJoin resetSuffix : String)
    (h : aw < 2 + s0.width) :
    (computeResponsiveLayout sw (s0 :: rest) aw sepJoin resetSuffix).1 = "" ∧
    (layoutFold aw sw (s0 :: rest)).topSegments = [] ∧
    (layoutFold aw sw (s0 :: rest)).secondarySegments
      = (s0 :: rest).map (·.content) ∧
    buildContentFromParts [] sepJoin resetSuffix = "" ∧
    (∀ i, i < (s0 :: rest).length → goesSecondary aw sw (s0 :: rest) i = true) := by
  have hfold := layoutFold_narrow aw sw s0 rest h
  refine ⟨?_, ?_, ?_, ?_, ?_⟩
  · unfold computeResponsiveLayout
    rw [if_neg (by simp)]
    simp [hfold, buildContentFromParts]
  · simp [hfold]
  · simp [hfold]
  · simp [buildContentFromParts]
  · intro i hi
    have h1 : (stateAfter aw sw (s0 :: rest) 1).overflow = true := by
      rw [stateAfter_succ aw sw (s0 :: rest) 0 (by simp)]
      show (layoutStep aw sw initAcc s0).overflow = true
      rw [layoutStep_init_overflow aw sw s0 h]
    cases i with
    | zero =>
      unfold goesSecondary stateAfter
      simp only [List.take_succ_cons, List.take_zero, List.foldl_cons,
        List.foldl_nil, layoutStep_init_overflow aw sw s0 h]
      simp [initAcc]
    | succ n =>
      exact goesSecondary_of_overflow aw sw (s0 :: rest) (n + 1) hi
        (stateAfter_overflow_mono aw sw (s0 :: rest)
          (Nat.succ_le_succ (Nat.zero_le n)) h1)

/-- C8 witness: a single 3-wide segment with budget 4 (< 2 + 3) yields an
empty primary row and goes to the secondary row. -/
theorem C8_narrow_width_empty_primary_witness :
    (computeResponsiveLayout 0 [⟨"x", 3⟩] 4 "|" "R").1 = "" ∧
    goesSecondary 4 0 [⟨"x", 3⟩] 0 = true :=
  ⟨(C8_narrow_width_empty_primary ⟨"x", 3⟩ [] 4 0 "|" "R" (by decide)).1,
   (C8_narrow_width_empty_primary ⟨"x", 3⟩ [] 4 0 "|" "R" (by decide)).2.2.2.2
     0 (by decide)⟩

/-- `getCurrentBranch` never touches the status cache. -/
theorem getCurrentBranch_cachedStatus (now : Nat) (pb : Option String)
    (s : GitCacheState) :
    ((getCurrentBranch now pb s).2).cachedStatus = s.cachedStatus := by
  unfold getCurrentBranch
  split <;> (try split) <;> (try split) <;> rfl

/-- `getCurrentBranch` never touches the status in-flight marker. -/
theorem getCurrentBranch_pendingFetch (now : Nat) (pb : Option String)
    (s : GitCacheState) :
    ((getCurrentBranch now pb s).2).pendingFetch = s.pendingFetch := by
  unfold getCurrentBranch
  split <;> (try split) <;> (try split) <;> rfl

/-- `getCurrentBranch` never touches the status generation counter. -/
theorem getCurrentBranch_invalidationCounter (now : Nat) (pb : Option String)
    (s : GitCacheState) :
    ((getCurrentBranch now pb s).2).invalidationCounter = s.invalidationCounter := by
  unfold getCurrentBranch
  split <;> (try split) <;> (try split) <;> rfl

/-- C1: for both resource kinds, a read performed right after the
corresponding invalidate serves the freshly-emptied state (zero counts for
the working-tree status, the caller-supplied provider fallback for the
branch) and not the erased cache entry; a background fetch completion
whose captured generation differs from the current counter writes nothing
to the cache; and a fetch that was in flight when the invalidation
happened (its captured generation is at most the pre-invalidation
counter) cannot resurrect the erased entry. -/
theorem C1_generation_invalidation (s : GitCacheState) (now now2 : Nat)
    (pb : Option String) (res : Option GitCounts) (bres : Option String) :
    ((getGitStatus now pb (invalidateGitStatus s)).1
      = ⟨(getCurrentBranch now pb (invalidateGitStatus s)).1, 0, 0, 0⟩) ∧
    ((getCurrentBranch now pb (invalidateGitBranch s)).1 = pb) ∧
    (∀ fid, s.pendingFetch = some fid → fid ≠ s.invalidationCounter →
      (completeStatusFetch res now2 s).cachedStatus = s.cachedStatus) ∧
    (∀ fid, s.pendingBranchFetch = some fid → fid ≠ s.branchInvalidationCounter →
      (completeBranchFetch bres now2 s).cachedBranch = s.cachedBranch) ∧
    (∀ fid, s.pendingFetch = some fid → fid ≤ s.invalidationCounter →
      (completeStatusFetch res now2 (invalidateGitStatus s)).cachedStatus = none) ∧
    (∀ fid, s.pendingBranchFetch = some fid → fid ≤ s.branchInvalidationCounter →
      (completeBranchFetch bres now2 (invalidateGitBranch s)).cachedBranch = none) := by
  refine ⟨?_, ?_, ?_, ?_, ?_, ?_⟩
  · have hcs : ((getCurrentBranch now pb (invalidateGitStatus s)).2).cachedStatus
        = none := by
      rw [getCurrentBranch_cachedStatus]
      rfl
    simp only [getGitStatus]
    rw [hcs]
  · unfold invalidateGitBranch getCurrentBranch
    simp
  · intro fid hp hne
    unfold completeStatusFetch
    rw [hp]
    simp [hne]
  · intro fid hp hne
    unfold completeBranchFetch
    rw [hp]
    simp [hne]
  · intro fid hp hle
    have hne : fid ≠ s.invalidationCounter + 1 := by omega
    unfold invalidateGitStatus completeStatusFetch
    simp [hp, hne]
  · intro fid hp hle
    have hne : fid ≠ s.branchInvalidationCounter + 1 := by omega
    unfold invalidateGitBranch completeBranchFetch
    simp [hp, hne]

/-- A concrete cache state with fresh entries, both fetch kinds in
flight, and generation counters 0. -/
def witnessState : GitCacheState :=
  ⟨some ⟨1, 2, 3, 0⟩, some ⟨some "main", 0⟩, some 0, some 0, 0, 0⟩

/-- C1 witness: at a concrete state with a dirty cached status and a
pending fetch of generation 0, invalidating and completing the stale
fetch leaves the status cache empty, and the immediate reads serve zeros
and the provider branch. -/
theorem C1_generation_invalidation_witness :
    witnessState.pendingFetch = some 0 ∧
    (completeStatusFetch (some ⟨4, 5, 6⟩) 7 (invalidateGitStatus witnessState)).cachedStatus
      = none ∧
    (getGitStatus 9 (some "prov") (invalidateGitStatus witnessState)).1
      = ⟨some "main", 0, 0, 0⟩ ∧
    (getCurrentBranch 9 (some "prov") (invalidateGitBranch witnessState)).1
      = some "prov" :=
  ⟨rfl,
   (C1_generation_invalidation witnessState 9 7 (some "prov") (some ⟨4, 5, 6⟩)
      (some "dev")).2.2.2.2.1 0 rfl (by decide),
   by
     rw [(C1_generation_invalidation witnessState 9 7 (some "prov")
       (some ⟨4, 5, 6⟩) (some "dev")).1]
     decide,
   (C1_generation_invalidation witnessState 9 7 (some "prov") (some ⟨4, 5, 6⟩)
      (some "dev")).2.1⟩

/-- C2: a read that hits a fresh cache entry (for either resource kind)
starts no new fetch — the fresh branch read leaves the whole state
untouched and the fresh status read leaves the status in-flight marker
untouched — and a read arriving while a fetch for its kind is already in
flight leaves that in-flight marker exactly as it was (no second fetch
starts). -/
theorem C2_ttl_single_flight (s : GitCacheState) (now : Nat)
    (pb : Option String) :
    (∀ cb, s.cachedBranch = some cb → now - cb.timestamp < BRANCH_TTL_MS →
      (getCurrentBranch now pb s).2 = s) ∧
    (∀ cs, s.cachedStatus = some cs → now - cs.timestamp < CACHE_TTL_MS →
      (getGitStatus now pb s).2.pendingFetch = s.pendingFetch) ∧
    (∀ fid, s.pendingBranchFetch = some fid →
      (getCurrentBranch now pb s).2.pendingBranchFetch = some fid) ∧
    (∀ fid, s.pendingFetch = some fid →
      (getGitStatus now pb s).2.pendingFetch = some fid) := by
  refine ⟨?_, ?_, ?_, ?_⟩
  · intro cb hcb ht
    unfold getCurrentBranch
    rw [hcb]
    simp [ht]
  · intro cs hcs ht
    have h1 := getCurrentBranch_cachedStatus now pb s
    have h2 := getCurrentBranch_pendingFetch now pb s
    simp only [getGitStatus]
    rw [h1, hcs]
    simp [ht, h2]
  · intro fid hp
    unfold getCurrentBranch
    split <;> (try split) <;> simp_all
  · intro fid hp
    have h2 := getCurrentBranch_pendingFetch now pb s
    simp only [getGitStatus]
    split <;> (try split) <;> simp_all

/-- C2 witness: at the concrete fresh state, the fresh branch read leaves
the state unchanged, and the status read keeps the single in-flight
status fetch. -/
theorem C2_ttl_single_flight_witness :
    (getCurrentBranch 100 none witnessState).2 = witnessState ∧
    (getGitStatus 100 none witnessState).2.pendingFetch = some 0 :=
  ⟨(C2_ttl_single_flight witnessState 100 none).1 ⟨some "main", 0⟩ rfl (by decide),
   (C2_ttl_single_flight witnessState 100 none).2.2.2 0 rfl⟩

/-- Once the promise is resolved, later events are ignored. -/
theorem foldl_runGitStep_resolved (events : List ProcEvent)
    (st : RunGitState) (r : Option String) (h : st.result = some r) :
    (events.foldl runGitStep st).result = some r := by
  induction events generalizing st with
  | nil => simpa using h
  | cons e rest ih =>
    rw [List.foldl_cons]
    have hstep : runGitStep st e = st := by
      simp [runGitStep, h]
    rw [hstep]
    exact ih st h

/-- While unresolved, data events only append to the captured stdout. -/
theorem foldl_runGitStep_data (chunks : List String) (st : RunGitState)
    (h : st.result = none) :
    (chunks.map ProcEvent.data).foldl runGitStep st
      = ⟨chunks.foldl (· ++ ·) st.stdout, none⟩ := by
  induction chunks generalizing st with
  | nil =>
    simp only [List.map_nil, List.foldl_nil]
    cases st with
    | mk out res => simp_all
  | cons c cs ih =>
    rw [List.map_cons, List.foldl_cons, List.foldl_cons]
    have hstep : runGitStep st (.data c) = ⟨st.stdout ++ c, none⟩ := by
      simp [runGitStep, h]
    rw [hstep]
    exact ih _ rfl

/-- A terminating event somewhere in the sequence resolves the promise. -/
theorem foldl_runGitStep_isSome (events : List ProcEvent) (st : RunGitState)
    (h : (∃ e ∈ events, isTerminal e = true) ∨ st.result.isSome) :
    ((events.foldl runGitStep st).result).isSome := by
  induction events generalizing st with
  | nil =>
    rcases h with ⟨e, he, -⟩ | h
    · cases he
    · simpa using h
  | cons e rest ih =>
    rw [List.foldl_cons]
    cases hres : st.result with
    | some r =>
      rw [foldl_runGitStep_resolved rest _ r (by simp [runGitStep, hres])]
      simp
    | none =>
      rcases h with ⟨e', he', ht⟩ | h
      · rcases List.mem_cons.mp he' with rfl | hmem
        · apply ih
          right
          cases e' with
          | data c => simp [isTerminal] at ht
          | close code => simp [runGitStep, hres]
          | error => simp [runGitStep, hres]
          | timeout => simp [runGitStep, hres]
        · exact ih _ (Or.inl ⟨e', hmem, ht⟩)
      · rw [hres] at h
        simp at h

/-- C7: the gateway always resolves and never throws — a terminating
event always produces a result; a close with exit code zero resolves with
the trimmed accumulated stdout; and every failure path (non-zero or
absent exit code, spawn error, timeout) resolves with `null`, with any
event after the first terminating one ignored. -/
theorem C7_runGit_contract (chunks : List String) (rest : List ProcEvent)
    (code : Option Int) :
    (runGit (chunks.map ProcEvent.data ++ ProcEvent.close (some 0) :: rest)
      = some (some (jsTrim (chunks.foldl (· ++ ·) "")))) ∧
    (code ≠ some 0 →
      runGit (chunks.map ProcEvent.data ++ ProcEvent.close code :: rest)
        = some none) ∧
    (runGit (chunks.map ProcEvent.data ++ ProcEvent.error :: rest) = some none) ∧
    (runGit (chunks.map ProcEvent.data ++ ProcEvent.timeout :: rest) = some none) ∧
    (∀ events : List ProcEvent, (∃ e ∈ events, isTerminal e = true) →
      (runGit events).isSome) := by
  refine ⟨?_, ?_, ?_, ?_, ?_⟩
  · unfold runGit
    rw [List.foldl_append, foldl_runGitStep_data chunks ⟨"", none⟩ rfl,
        List.foldl_cons]
    have hstep : runGitStep ⟨chunks.foldl (· ++ ·) "", none⟩ (.close (some 0))
        = ⟨chunks.foldl (· ++ ·) "",
           some (some (jsTrim (chunks.foldl (· ++ ·) "")))⟩ := by
      simp [runGitStep]
    rw [hstep]
    exact foldl_runGitStep_resolved rest _ _ rfl
  · intro hcode
    unfold runGit
    rw [List.foldl_append, foldl_runGitStep_data chunks ⟨"", none⟩ rfl,
        List.foldl_cons]
    have hstep : runGitStep ⟨chunks.foldl (· ++ ·) "", none⟩ (.close code)
        = ⟨chunks.foldl (· ++ ·) "", some none⟩ := by
      simp [runGitStep, hcode]
    rw [hstep]
    exact foldl_runGitStep_resolved rest _ _ rfl
  · unfold runGit
    rw [List.foldl_append, foldl_runGitStep_data chunks ⟨"", none⟩ rfl,
        List.foldl_cons]
    have hstep : runGitStep ⟨chunks.foldl (· ++ ·) "", none⟩ .error
        = ⟨chunks.foldl (· ++ ·) "", some none⟩ := by
      simp [runGitStep]
    rw [hstep]
    exact foldl_runGitStep_resolved rest _ _ rfl
  · unfold runGit
    rw [List.foldl_append, foldl_runGitStep_data chunks ⟨"", none⟩ rfl,
        List.foldl_cons]
    have hstep : runGitStep ⟨chunks.foldl (· ++ ·) "", none⟩ .timeout
        = ⟨chunks.foldl (· ++ ·) "", some none⟩ := by
      simp [runGitStep]
    rw [hstep]
    exact foldl_runGitStep_resolved rest _ _ rfl
  · intro events he
    unfold runGit
    exact foldl_runGitStep_isSome events ⟨"", none⟩ (Or.inl he)

/-- C7 witness: a non-zero exit resolves with `null`, and the zero-exit
close event arriving after the promise already resolved is ignored. -/
theorem C7_runGit_contract_witness :
    ((some 1 : Option Int) ≠ some 0) ∧
    runGit [ProcEvent.data "  hi  ", ProcEvent.close (some 1),
            ProcEvent.close (some 0)] = some none :=
  ⟨by decide,
   (C7_runGit_contract ["  hi  "] [ProcEvent.close (some 0)] (some 1)).2.1
     (by decide)⟩

/-- C9 witness: the unknown id `"totally-unknown"` renders invisibly. -/
theorem C9_unknown_segment_invisible_witness :
    "totally-unknown" ∉ segmentIds ∧
    renderSegment trivialImpls "totally-unknown" () = ⟨"", false⟩ :=
  ⟨by decide,
   C9_unknown_segment_invisible trivialImpls "totally-unknown" () (by decide)⟩

end Powerline
